import Mathlib

/-!
Verification of the transcript-to-markdown converter (`py/log-converter.py`).

The converter reads a JSONL transcript, classifies and groups records into
items, pairs tool calls with tool results, and renders a markdown document.
This file gives a shallow embedding of that program: parsed JSON values are
the `JValue` type, each Python function is translated to a Lean function of
the same name (in lowerCamelCase), and the claims about the program are
settled as theorems over those definitions.

Conventions for the embedding of Python semantics:
* `JValue.getD v k d` models `v.get(k, d)` on a parsed-JSON dict.  On a
  non-dict value the source would raise `AttributeError`; the model returns
  the default (the theorems below only exercise inputs where the source does
  not raise).
* Python truthiness of a parsed JSON value is `truthy`.
* Where the source calls a `str` method on a value that is only a `str` for
  well-formed input (`.strip()`, `.splitlines()`, `len`), the model coerces
  with `asStr` (non-strings map to `""`); on such inputs the source raises.
* Python `str.strip()` strips whitespace; the model uses the ASCII
  whitespace set (Unicode-only whitespace is not modelled).
-/

/-- A parsed JSON value, the result of `json.loads` on one transcript line.
Numbers are modelled by their integer part (no claim depends on numerics). -/
inductive JValue where
  | null
  | bool (b : Bool)
  | num (n : Int)
  | str (s : String)
  | arr (xs : List JValue)
  | obj (fields : List (String × JValue))

mutual

/-- Structural Boolean equality of JSON values (Python `==` on the values
the converter compares: strings, and parsed payloads used as dict keys). -/
def JValue.beq : JValue → JValue → Bool
  | .null, .null => true
  | .bool a, .bool b => a == b
  | .num a, .num b => a == b
  | .str a, .str b => a == b
  | .arr xs, .arr ys => JValue.beqArr xs ys
  | .obj fs, .obj gs => JValue.beqObj fs gs
  | _, _ => false

/-- Elementwise `JValue.beq` on lists. -/
def JValue.beqArr : List JValue → List JValue → Bool
  | [], [] => true
  | x :: xs, y :: ys => JValue.beq x y && JValue.beqArr xs ys
  | _, _ => false

/-- Elementwise `JValue.beq` on key-value lists. -/
def JValue.beqObj : List (String × JValue) → List (String × JValue) → Bool
  | [], [] => true
  | (k, v) :: fs, (l, w) :: gs => k == l && JValue.beq v w && JValue.beqObj fs gs
  | _, _ => false

end

theorem JValue.beq_iff (a b : JValue) : (JValue.beq a b = true ↔ a = b) := by
  refine JValue.beq.induct
    (fun a b => JValue.beq a b = true ↔ a = b)
    (fun fs gs => JValue.beqObj fs gs = true ↔ fs = gs)
    (fun xs ys => JValue.beqArr xs ys = true ↔ xs = ys)
    ?_ ?_ ?_ ?_ ?_ ?_ ?_ ?_ ?_ ?_ ?_ ?_ ?_ a b
  · simp [JValue.beq]
  · intro a b; simp [JValue.beq]
  · intro a b; simp [JValue.beq]
  · intro a b; simp [JValue.beq]
  · intro xs ys ih; simpa [JValue.beq] using ih
  · intro fs gs ih; simpa [JValue.beq] using ih
  · intro t x h1 h2 h3 h4 h5 h6
    cases t <;> cases x <;>
      first
        | exact absurd rfl (fun h => h1 h rfl)
        | exact absurd rfl (fun h => h2 _ _ h rfl)
        | exact absurd rfl (fun h => h3 _ _ h rfl)
        | exact absurd rfl (fun h => h4 _ _ h rfl)
        | exact absurd rfl (fun h => h5 _ _ h rfl)
        | exact absurd rfl (fun h => h6 _ _ h rfl)
        | simp [JValue.beq]
  · simp [JValue.beqArr]
  · intro x xs y ys ih1 ih2; simp [JValue.beqArr, ih1, ih2]
  · intro t x h1 h2
    cases t <;> cases x <;>
      first
        | exact absurd rfl (fun h => h1 h rfl)
        | exact absurd rfl (fun h => h2 _ _ _ _ h rfl)
        | simp [JValue.beqArr]
  · simp [JValue.beqObj]
  · intro k v fs l w gs ih1 ih2
    simp [JValue.beqObj, ih1, ih2, Prod.ext_iff, and_assoc]
  · intro t x h1 h2
    match t, x with
    | [], [] => exact absurd rfl (fun h => h1 h rfl)
    | [], (l, w) :: gs => simp [JValue.beqObj]
    | (k, v) :: fs, [] => simp [JValue.beqObj]
    | (k, v) :: fs, (l, w) :: gs => exact absurd rfl (fun h => h2 _ _ _ _ _ _ h rfl)

instance : DecidableEq JValue := fun a b =>
  decidable_of_iff (JValue.beq a b = true) (JValue.beq_iff a b)

/-- Python truthiness of a parsed JSON value (`if v:`). -/
def truthy : JValue → Bool
  | .null => false
  | .bool b => b
  | .num n => n != 0
  | .str s => s ≠ ""
  | .arr xs => xs ≠ []
  | .obj fs => fs ≠ []

/-- `isinstance(v, dict)` for a parsed JSON value. -/
def JValue.isObj : JValue → Bool
  | .obj _ => true
  | _ => false

/-- `isinstance(v, str)` for a parsed JSON value. -/
def JValue.isStr : JValue → Bool
  | .str _ => true
  | _ => false

/-- `v.get(k, d)` on a parsed JSON dict.  `json.loads` keeps the last value
for a duplicated key, so lookup scans from the end.  On a non-dict the
source raises `AttributeError`; the model returns the default. -/
def JValue.getD (v : JValue) (k : String) (d : JValue) : JValue :=
  match v with
  | .obj fs =>
    match fs.reverse.find? (fun e => e.1 = k) with
    | some e => e.2
    | none => d
  | _ => d

/-- Coerce a JSON value to the string it holds; `""` for non-strings (where
the source would raise on a `str` method call). -/
def asStr : JValue → String
  | .str s => s
  | _ => ""

/-- The ASCII whitespace characters stripped by Python `str.strip()`. -/
def pyWsChars : List Char := [' ', '\t', '\n', '\r', '\x0b', '\x0c']

/-- Python `str.strip()` (ASCII whitespace). -/
def pyStrip (s : String) : String :=
  String.mk (((s.data.dropWhile (pyWsChars.contains ·)).reverse.dropWhile
    (pyWsChars.contains ·)).reverse)

/-- Python `s.startswith(p)`: code-point prefix test. -/
def pyStartsWith (s p : String) : Bool :=
  p.data.isPrefixOf s.data

/-- Python `len(s)` (code points). -/
def pyLen (s : String) : Nat := s.data.length

/-- Python `s[:n]` (code points). -/
def pyTake (s : String) (n : Nat) : String := String.mk (s.data.take n)

/-- Characters treated as line boundaries by Python `str.splitlines()`
(`\r\n` is additionally treated as a single boundary). -/
def pyLineBreakChars : List Char :=
  ['\n', '\r', '\x0b', '\x0c', '\x1c', '\x1d', '\x1e', '\x85', ' ', ' ']

/-- Worker for `pySplitlines`: `acc` holds the current line reversed. -/
def splitlinesAux : List Char → List Char → List String
  | acc, [] => if acc.isEmpty then [] else [String.mk acc.reverse]
  | acc, '\r' :: '\n' :: rest => String.mk acc.reverse :: splitlinesAux [] rest
  | acc, c :: rest =>
    if pyLineBreakChars.contains c then
      String.mk acc.reverse :: splitlinesAux [] rest
    else
      splitlinesAux (c :: acc) rest

/-- Python `str.splitlines()`: no trailing empty line for a trailing
terminator, `[]` on the empty string. -/
def pySplitlines (s : String) : List String := splitlinesAux [] s.data

/-- Worker for `pySplitNl`: `acc` holds the current field reversed. -/
def splitNlAux : List Char → List Char → List String
  | acc, [] => [String.mk acc.reverse]
  | acc, '\n' :: rest => String.mk acc.reverse :: splitNlAux [] rest
  | acc, c :: rest => splitNlAux (c :: acc) rest

/-- Python `s.split("\n")` (keeps empty fields; `[""]` on the empty
string). -/
def pySplitNl (s : String) : List String := splitNlAux [] s.data

/-- `_truncate(text, max_len)` (log-converter.py line 160): truncate with a
trailing ellipsis. -/
def truncate (text : String) (maxLen : Nat) : String :=
  if pyLen text ≤ maxLen then text else pyTake text maxLen ++ "..."

/-- One left-to-right pass of `re.sub(r'</?tool_use_error>', '', text)`:
each occurrence of either tag is removed, scanning the original text. -/
def stripErrTags : List Char → List Char
  | [] => []
  | '<' :: 't' :: 'o' :: 'o' :: 'l' :: '_' :: 'u' :: 's' :: 'e' :: '_' ::
      'e' :: 'r' :: 'r' :: 'o' :: 'r' :: '>' :: rest => stripErrTags rest
  | '<' :: '/' :: 't' :: 'o' :: 'o' :: 'l' :: '_' :: 'u' :: 's' :: 'e' :: '_' ::
      'e' :: 'r' :: 'r' :: 'o' :: 'r' :: '>' :: rest => stripErrTags rest
  | c :: rest => c :: stripErrTags rest

/-- `_clean_result_text` (line 144): strip `<tool_use_error>` wrapper tags,
then strip whitespace. -/
def cleanResultText (text : String) : String :=
  pyStrip (String.mk (stripErrTags text.data))

/-- Replace every non-overlapping occurrence of `pat` by `rep`, scanning
left to right (Python `str.replace`).  Fuel-structural: with fuel at least
the text length the fuel never runs out, since each step consumes at least
one character. -/
def replaceListAux (pat rep : List Char) : Nat → List Char → List Char
  | _, [] => []
  | 0, l => l
  | fuel + 1, c :: rest =>
    if pat ≠ [] ∧ pat.isPrefixOf (c :: rest) then
      rep ++ replaceListAux pat rep fuel ((c :: rest).drop pat.length)
    else
      c :: replaceListAux pat rep fuel rest

/-- Python `s.replace(pat, rep)` (all occurrences, left to right). -/
def pyReplace (s pat rep : String) : String :=
  String.mk (replaceListAux pat.data rep.data s.data.length s.data)

/-- `_escape_html` (line 150). -/
def escapeHtml (text : String) : String :=
  pyReplace (pyReplace (pyReplace text "&" "&amp;") "<" "&lt;") ">" "&gt;"

/-- `_unescape_html` (line 155). -/
def unescapeHtml (text : String) : String :=
  pyReplace (pyReplace (pyReplace text "&lt;" "<") "&gt;" ">") "&amp;" "&"

/-- Python `repr` of a string, as it appears inside `str()` of a parsed
JSON container (single-quoted; common escapes modelled). -/
def pyReprStr (s : String) : String :=
  "'" ++ String.mk (s.data.flatMap (fun c =>
    if c = '\\' then ['\\', '\\']
    else if c = '\'' then ['\\', '\'']
    else if c = '\n' then ['\\', 'n']
    else if c = '\r' then ['\\', 'r']
    else if c = '\t' then ['\\', 't']
    else [c])) ++ "'"

mutual

/-- Python `str()`/`repr()` of a parsed JSON value (dicts and lists print in
Python literal syntax). -/
def pyStr : JValue → String
  | .null => "None"
  | .bool true => "True"
  | .bool false => "False"
  | .num n => toString n
  | .str s => pyReprStr s
  | .arr xs => "[" ++ pyStrArr xs ++ "]"
  | .obj fs => "\x7b" ++ pyStrObj fs ++ "\x7d"

/-- Comma-joined `repr` of list elements. -/
def pyStrArr : List JValue → String
  | [] => ""
  | [x] => pyStr x
  | x :: xs => pyStr x ++ ", " ++ pyStrArr xs

/-- Comma-joined `repr` of dict entries. -/
def pyStrObj : List (String × JValue) → String
  | [] => ""
  | [(k, v)] => pyReprStr k ++ ": " ++ pyStr v
  | (k, v) :: fs => pyReprStr k ++ ": " ++ pyStr v ++ ", " ++ pyStrObj fs

end

/-- Python `str(v)` as used by f-string interpolation: a `str` value is
inserted verbatim, anything else via `pyStr`. -/
def pyToStrF : JValue → String
  | .str s => s
  | v => pyStr v

example : pyStrip "  a b \n" = "a b" := by decide
example : pyStartsWith "--- x" "---" = true := by decide
example : (JValue.obj [("a", .str "x"), ("a", .str "y")]).getD "a" .null
    = .str "y" := by decide
example : truthy (.str "") = false := by decide
example : pySplitlines "ab\ncd\n" = ["ab", "cd"] := by decide
example : pySplitlines "" = [] := by decide
example : pySplitlines "\n" = [""] := by decide
example : pySplitNl "a\n" = ["a", ""] := by decide
example : cleanResultText " <tool_use_error>boom</tool_use_error> " = "boom" := by
  decide
example : cleanResultText "<</tool_use_error>tool_use_error>" = "<tool_use_error>" := by
  decide
example : escapeHtml "a<b>&c" = "a&lt;b&gt;&amp;c" := by decide
example : unescapeHtml "a&lt;b&gt;&amp;c" = "a<b>&c" := by decide
example : truncate "abcdef" 4 = "abcd..." := by decide
example : truncate "abcd" 4 = "abcd" := by decide
example : pyToStrF (.str "x") = "x" := by decide
example : pyToStrF (.arr [.num 1, .str "a"]) = "[1, 'a']" := by decide

/-!
### The diff engine

`difflib.SequenceMatcher` / `difflib.unified_diff` as used by the
converter: `isjunk=None` (so the junk set is empty and the junk-extension
loops of `find_longest_match` never run), `autojunk=True` (popular
elements are removed from the index when the second sequence has at least
200 elements), file names and dates empty, `lineterm=""`.
-/

/-- Append index `j` to the entry for `elt` in the element-to-indices map
(`b2j` construction; indices stay in ascending order). -/
def b2jAdd (m : List (String × List Nat)) (elt : String) (j : Nat) :
    List (String × List Nat) :=
  if m.any (fun e => e.1 = elt) then
    m.map (fun e => if e.1 = elt then (e.1, e.2 ++ [j]) else e)
  else m ++ [(elt, [j])]

/-- `__chain_b`: map each element of `b` to its list of indices, then drop
"popular" elements when `len(b) >= 200` (autojunk). -/
def b2j (b : List String) : List (String × List Nat) :=
  let m := b.enum.foldl (fun m ij => b2jAdd m ij.2 ij.1) []
  if 200 ≤ b.length then
    let ntest := b.length / 100 + 1
    m.filter (fun e => e.2.length ≤ ntest)
  else m

/-- Lookup in the `b2j` map (`b2j.get(elt, [])`). -/
def b2jGet (m : List (String × List Nat)) (elt : String) : List Nat :=
  match m.find? (fun e => e.1 = elt) with
  | some e => e.2
  | none => []

/-- Lookup in the `j2len` map (`j2len.get(j, 0)`). -/
def j2lenGet (m : List (Nat × Nat)) (j : Nat) : Nat :=
  match m.find? (fun e => e.1 = j) with
  | some e => e.2
  | none => 0

/-- Inner loop of `find_longest_match`: scan the `b`-indices of `a[i]`,
building the new `j2len` map and updating the best match.  Matches of
length `k` ending at `(i, j)` give candidate `(i-k+1, j-k+1, k)`; the
Python `j2len.get(j-1, 0)` at `j = 0` looks up key `-1` and gets `0`. -/
def flmScanB (i : Nat) (j2len : List (Nat × Nat)) :
    List Nat → (Nat × Nat × Nat) → List (Nat × Nat) →
      ((Nat × Nat × Nat) × List (Nat × Nat))
  | [], best, newj2len => (best, newj2len)
  | j :: js, best, newj2len =>
    let k := (if j = 0 then 0 else j2lenGet j2len (j - 1)) + 1
    let best := if best.2.2 < k then (i + 1 - k, j + 1 - k, k) else best
    flmScanB i j2len js best (newj2len ++ [(j, k)])

/-- Outer loop of `find_longest_match` over `i` in `range(alo, ahi)`.  The
Python `continue` below `blo` and `break` at `bhi` act on an ascending
index list, hence `filter`/`takeWhile`. -/
def flmOuter (a : List String) (bj : List (String × List Nat)) (blo bhi : Nat) :
    List Nat → ((Nat × Nat × Nat) × List (Nat × Nat)) → (Nat × Nat × Nat)
  | [], st => st.1
  | i :: is, (best, j2len) =>
    let js := ((b2jGet bj (a.getD i "")).filter (fun j => blo ≤ j)).takeWhile
      (fun j => j < bhi)
    let (best, newj2len) := flmScanB i j2len js best []
    flmOuter a bj blo bhi is (best, newj2len)

/-- First extension loop of `find_longest_match`: extend the best match to
the left while the adjacent elements agree (the junk set is empty, so the
`isbjunk` guard is vacuous).  Fuel-structural, fuel `besti` suffices. -/
def extendLeft (a b : List String) (alo blo : Nat) :
    Nat → Nat → Nat → Nat → (Nat × Nat × Nat)
  | 0, besti, bestj, bestsize => (besti, bestj, bestsize)
  | fuel + 1, besti, bestj, bestsize =>
    if alo < besti ∧ blo < bestj ∧
        a.getD (besti - 1) "" = b.getD (bestj - 1) "" then
      extendLeft a b alo blo fuel (besti - 1) (bestj - 1) (bestsize + 1)
    else (besti, bestj, bestsize)

/-- Second extension loop of `find_longest_match`: extend to the right.
Fuel-structural, fuel `ahi` suffices. -/
def extendRight (a b : List String) (ahi bhi besti bestj : Nat) :
    Nat → Nat → Nat
  | 0, bestsize => bestsize
  | fuel + 1, bestsize =>
    if besti + bestsize < ahi ∧ bestj + bestsize < bhi ∧
        a.getD (besti + bestsize) "" = b.getD (bestj + bestsize) "" then
      extendRight a b ahi bhi besti bestj fuel (bestsize + 1)
    else bestsize

/-- `SequenceMatcher.find_longest_match` on `a[alo:ahi]` and `b[blo:bhi]`
(with the empty junk set the two junk-extension loops never fire). -/
def findLongestMatch (a b : List String) (bj : List (String × List Nat))
    (alo ahi blo bhi : Nat) : Nat × Nat × Nat :=
  let (besti, bestj, bestsize) :=
    flmOuter a bj blo bhi (List.range' alo (ahi - alo)) ((alo, blo, 0), [])
  let (besti, bestj, bestsize) :=
    extendLeft a b alo blo besti besti bestj bestsize
  let bestsize := extendRight a b ahi bhi besti bestj ahi bestsize
  (besti, bestj, bestsize)

/-- `get_matching_blocks` work loop.  The Python version keeps a LIFO queue
of regions and sorts the collected matches at the end; splitting each
region in order (left part, match, right part) yields the same sorted
list.  Fuel-structural: each sub-region is strictly smaller, so fuel
`ahi + bhi + 1` suffices. -/
def matchBlocksRec (a b : List String) (bj : List (String × List Nat)) :
    Nat → Nat → Nat → Nat → Nat → List (Nat × Nat × Nat)
  | 0, _, _, _, _ => []
  | fuel + 1, alo, ahi, blo, bhi =>
    let (i, j, k) := findLongestMatch a b bj alo ahi blo bhi
    if k = 0 then []
    else
      (if alo < i ∧ blo < j then matchBlocksRec a b bj fuel alo i blo j else [])
        ++ [(i, j, k)]
        ++ (if i + k < ahi ∧ j + k < bhi then
              matchBlocksRec a b bj fuel (i + k) ahi (j + k) bhi
            else [])

/-- Collapse adjacent equal blocks (`get_matching_blocks` post-pass),
starting from the dummy `(0, 0, 0)`. -/
def collapseBlocks : (Nat × Nat × Nat) → List (Nat × Nat × Nat) →
    List (Nat × Nat × Nat)
  | cur, [] => if cur.2.2 ≠ 0 then [cur] else []
  | cur, m :: ms =>
    if cur.1 + cur.2.2 = m.1 ∧ cur.2.1 + cur.2.2 = m.2.1 then
      collapseBlocks (cur.1, cur.2.1, cur.2.2 + m.2.2) ms
    else
      (if cur.2.2 ≠ 0 then [cur] else []) ++ collapseBlocks m ms

/-- `SequenceMatcher.get_matching_blocks`, ending with the sentinel
`(len(a), len(b), 0)`. -/
def getMatchingBlocks (a b : List String) : List (Nat × Nat × Nat) :=
  let blocks :=
    matchBlocksRec a b (b2j b) (a.length + b.length + 1) 0 a.length 0 b.length
  collapseBlocks (0, 0, 0) blocks ++ [(a.length, b.length, 0)]

/-- Opcode tags of `SequenceMatcher.get_opcodes`. -/
inductive DTag where
  | replace
  | delete
  | insert
  | equal
deriving DecidableEq

/-- One opcode `(tag, i1, i2, j1, j2)` of `get_opcodes`. -/
structure Opcode where
  tag : DTag
  i1 : Nat
  i2 : Nat
  j1 : Nat
  j2 : Nat
deriving DecidableEq

/-- `get_opcodes` main loop over the matching blocks. -/
def opcodesLoop : Nat → Nat → List (Nat × Nat × Nat) → List Opcode
  | _, _, [] => []
  | i, j, (ai, bj_, size) :: rest =>
    (if i < ai ∧ j < bj_ then [⟨.replace, i, ai, j, bj_⟩]
     else if i < ai then [⟨.delete, i, ai, j, bj_⟩]
     else if j < bj_ then [⟨.insert, i, ai, j, bj_⟩]
     else [])
      ++ (if size ≠ 0 then [⟨.equal, ai, ai + size, bj_, bj_ + size⟩] else [])
      ++ opcodesLoop (ai + size) (bj_ + size) rest

/-- `SequenceMatcher.get_opcodes`. -/
def getOpcodes (a b : List String) : List Opcode :=
  opcodesLoop 0 0 (getMatchingBlocks a b)

/-- `get_grouped_opcodes`: shrink a leading equal run to `n` context
lines. -/
def adjustHead (n : Nat) : List Opcode → List Opcode
  | [] => []
  | c :: rest =>
    if c.tag = .equal then
      ⟨.equal, max c.i1 (c.i2 - n), c.i2, max c.j1 (c.j2 - n), c.j2⟩ :: rest
    else c :: rest

/-- `get_grouped_opcodes`: shrink a trailing equal run to `n` context
lines. -/
def adjustLast (n : Nat) (codes : List Opcode) : List Opcode :=
  match codes.getLast? with
  | none => []
  | some c =>
    if c.tag = .equal then
      codes.dropLast ++ [⟨.equal, c.i1, min c.i2 (c.i1 + n), c.j1, min c.j2 (c.j1 + n)⟩]
    else codes

/-- Is this group a single `equal` opcode (suppressed at the end of
`get_grouped_opcodes`)? -/
def isSingleEqual : List Opcode → Bool
  | [c] => c.tag = .equal
  | _ => false

/-- `get_grouped_opcodes` main loop: split at equal runs longer than `2n`
context lines. -/
def groupLoop (n : Nat) (group : List Opcode) : List Opcode → List (List Opcode)
  | [] => if group ≠ [] ∧ ¬ isSingleEqual group then [group] else []
  | c :: rest =>
    if c.tag = .equal ∧ n + n < c.i2 - c.i1 then
      (group ++ [⟨.equal, c.i1, min c.i2 (c.i1 + n), c.j1, min c.j2 (c.j1 + n)⟩]) ::
        groupLoop n [⟨.equal, max c.i1 (c.i2 - n), c.i2, max c.j1 (c.j2 - n), c.j2⟩] rest
    else groupLoop n (group ++ [c]) rest

/-- `SequenceMatcher.get_grouped_opcodes(n)`. -/
def getGroupedOpcodes (n : Nat) (a b : List String) : List (List Opcode) :=
  let codes := getOpcodes a b
  let codes := if codes = [] then [⟨.equal, 0, 1, 0, 1⟩] else codes
  groupLoop n [] (adjustLast n (adjustHead n codes))

/-- `difflib._format_range_unified`. -/
def formatRangeUnified (start stop : Nat) : String :=
  let length := stop - start
  if length = 1 then toString (start + 1)
  else toString (if length = 0 then start else start + 1) ++ "," ++ toString length

/-- Python `l[i:j]` on a list (for the valid ranges the opcodes produce). -/
def pySlice (l : List String) (i j : Nat) : List String := (l.drop i).take (j - i)

/-- Lines contributed by one opcode in `unified_diff`. -/
def renderOpcode (a b : List String) (c : Opcode) : List String :=
  if c.tag = .equal then (pySlice a c.i1 c.i2).map (fun l => " " ++ l)
  else
    (if c.tag = .replace ∨ c.tag = .delete then
       (pySlice a c.i1 c.i2).map (fun l => "-" ++ l)
     else [])
      ++ (if c.tag = .replace ∨ c.tag = .insert then
            (pySlice b c.j1 c.j2).map (fun l => "+" ++ l)
          else [])

/-- Lines contributed by one opcode group in `unified_diff`: the `@@`
header, then the opcode lines. -/
def renderDiffGroup (a b : List String) (g : List Opcode) : List String :=
  match g with
  | [] => []
  | first :: _ =>
    let last := (g.getLast?).getD first
    ("@@ -" ++ formatRangeUnified first.i1 last.i2 ++ " +"
        ++ formatRangeUnified first.j1 last.j2 ++ " @@")
      :: (g.map (renderOpcode a b)).flatten

/-- `difflib.unified_diff(a, b, lineterm="", n=n)` with empty file names
and dates: the two file-header lines are emitted once if there is at least
one group, then each group's lines. -/
def unifiedDiff (n : Nat) (a b : List String) : List String :=
  let groups := getGroupedOpcodes n a b
  if groups = [] then []
  else "--- " :: "+++ " :: (groups.map (renderDiffGroup a b)).flatten

example : unifiedDiff 2 ["a"] ["b"] = ["--- ", "+++ ", "@@ -1 +1 @@", "-a", "+b"] := by
  decide
example : unifiedDiff 2 ["x"] [] = ["--- ", "+++ ", "@@ -1 +0,0 @@", "-x"] := by
  decide
example : unifiedDiff 2 ["a"] ["a"] = [] := by decide
example : unifiedDiff 2 [] [] = [] := by decide
example : unifiedDiff 2 [] ["a"] = ["--- ", "+++ ", "@@ -0,0 +1 @@", "+a"] := by
  decide
example : unifiedDiff 2 ["--gone"] ["kept"]
    = ["--- ", "+++ ", "@@ -1 +1 @@", "---gone", "+kept"] := by decide
example : unifiedDiff 2 ["a", "b", "c", "d", "e", "f", "g", "h", "i", "j"]
      ["a", "b", "c", "X", "e", "f", "g", "h", "i", "Y"]
    = ["--- ", "+++ ", "@@ -2,5 +2,5 @@", " b", " c", "-d", "+X", " e", " f",
       "@@ -8,3 +8,3 @@", " h", " i", "-j", "+Y"] := by decide
example : unifiedDiff 2 ["1", "2", "3", "4", "5", "6", "7", "8", "9"]
      ["1", "2", "3", "4", "5", "6", "7", "8", "9", "10"]
    = ["--- ", "+++ ", "@@ -8,2 +8,3 @@", " 8", " 9", "+10"] := by decide
example : unifiedDiff 2 ["a", "a", "a", "b", "a", "a"] ["a", "a", "b", "a"]
    = ["--- ", "+++ ", "@@ -1,6 +1,4 @@", "-a", " a", " a", " b", " a", "-a"] := by
  decide
example : unifiedDiff 2 ["one", "two", "three", "four"]
      ["zero", "one", "tree", "four"]
    = ["--- ", "+++ ", "@@ -1,4 +1,4 @@", "+zero", " one", "-two", "-three",
       "+tree", " four"] := by decide

/-!
### Tool headers and result formatting
-/

/-- Max lines for inline result display (log-converter.py line 29). -/
def INLINE_RESULT_MAX_LINES : Nat := 4

/-- `_tool_header(name, inp)` (line 167): one-line tool-call header.  The
tool name arrives as the raw JSON value of the block's `name` field;
f-string interpolation of a raw value is `pyToStrF`. -/
def toolHeader (name : JValue) (inp : JValue) : String :=
  if ¬ inp.isObj then "● " ++ pyToStrF name
  else if name = .str "Bash" then
    let cmd := ((pySplitNl (asStr (inp.getD "command" (.str "")))).headD "")
    "● `Bash(" ++ truncate cmd 120 ++ ")`"
  else if name = .str "Read" then
    "● `Read(" ++ pyToStrF (inp.getD "file_path" (.str "")) ++ ")`"
  else if name = .str "Write" then
    "● `Write(" ++ pyToStrF (inp.getD "file_path" (.str "")) ++ ")`"
  else if name = .str "Edit" then
    "● `Update(" ++ pyToStrF (inp.getD "file_path" (.str "")) ++ ")`"
  else if name = .str "Glob" then
    "● `Glob(" ++ pyToStrF (inp.getD "pattern" (.str "")) ++ ")`"
  else if name = .str "Grep" then
    let pattern := inp.getD "pattern" (.str "")
    if truthy pattern then "● Searched for `" ++ truncate (asStr pattern) 80 ++ "`"
    else "● Searched codebase"
  else if name = .str "WebFetch" then
    "● `WebFetch(" ++ truncate (asStr (inp.getD "url" (.str ""))) 100 ++ ")`"
  else if name = .str "WebSearch" then
    "● `WebSearch(" ++ pyToStrF (inp.getD "query" (.str "")) ++ ")`"
  else if name = .str "Task" then
    let desc := asStr (inp.getD "description" (.str ""))
    let agent := inp.getD "subagent_type" (.str "")
    if truthy agent then
      "● `Task(" ++ pyToStrF agent ++ ": " ++ truncate desc 100 ++ ")`"
    else "● `Task(" ++ truncate desc 100 ++ ")`"
  else "● " ++ pyToStrF name

/-- `format_tool_result_content(content)` (line 220): extract text from a
`tool_result` content field (`[image]` placeholder for image blocks,
Python `str()` fallback for unknown blocks). -/
def formatToolResultContent : JValue → String
  | .str s => s
  | .arr blocks =>
    String.intercalate "\n" (blocks.filterMap (fun block =>
      match block with
      | .obj _ =>
        if block.getD "type" .null = .str "text" then
          some (asStr (block.getD "text" (.str "")))
        else if block.getD "type" .null = .str "image" then some "[image]"
        else some (pyStr block)
      | .str s => some s
      | _ => none))
  | v => if truthy v then pyStr v else ""

/-- `_render_result_inline(lines, content, is_error)` (line 240), as the
list of appended lines: first result line under a `⎿` marker (with a bold
error prefix when flagged), later lines aligned, then a blank line. -/
def renderResultInline (content : String) (isError : Bool) : List String :=
  ((pySplitNl content).enum.map (fun ir =>
    if ir.1 = 0 then (if isError then "  ⎿  **Error:** " else "  ⎿  ") ++ ir.2
    else "     " ++ ir.2)) ++ [""]

/-- `_render_result_collapsed(lines, content, summary_text, is_error)`
(line 250), as the list of appended lines. -/
def renderResultCollapsed (content summaryText : String) (isError : Bool) :
    List String :=
  let summaryText := if isError then "<b>Error:</b> " ++ summaryText else summaryText
  ["<details>",
   "<summary>" ++ summaryText ++ "</summary>",
   "<pre><code>" ++ escapeHtml content ++ "</code></pre>",
   "</details>",
   "<br>",
   ""]

/-- `_render_tool_with_result(lines, header, result_content, is_error)`
(line 262), as the list of appended lines. -/
def renderToolWithResult (header resultContent : String) (isError : Bool) :
    List String :=
  let content := if resultContent ≠ "" then cleanResultText resultContent else ""
  if content = "" then [header, ""]
  else if (pySplitNl content).length ≤ INLINE_RESULT_MAX_LINES then
    header :: renderResultInline content isError
  else
    renderResultCollapsed content (escapeHtml header) isError

/-- The diff body of the Edit branch of `render_markdown` (lines 382-389):
the unified diff of the old/new strings (2 context lines, no line
terminator) with the `---`/`+++` file-header lines filtered out. -/
def diffBody (old new_ : String) : List String :=
  (unifiedDiff 2 (pySplitlines old) (pySplitlines new_)).filter
    (fun l => ¬ (pyStartsWith l "---" ∨ pyStartsWith l "+++"))

/-- The Edit branch of `render_markdown` (lines 377-399), as the list of
appended lines.  `old`/`new_` are the string values of the tool input's
`old_string`/`new_string` fields (on non-string values the source raises
at `.splitlines()`). -/
def renderEditBlock (header old new_ resultContent : String) (isError : Bool) :
    List String :=
  [header]
    ++ (if old ≠ "" ∨ new_ ≠ "" then
          (if diffBody old new_ ≠ [] then
             "```diff" :: diffBody old new_ ++ ["```"]
           else [])
        else [])
    ++ (if resultContent ≠ "" then
          renderResultInline (cleanResultText resultContent) isError
        else [""])

example : toolHeader (.str "Read") (.obj [("file_path", .str "/tmp/x")])
    = "● `Read(/tmp/x)`" := by decide
example : toolHeader (.str "Edit") (.obj [("file_path", .str "f")])
    = "● `Update(f)`" := by decide
example : toolHeader (.str "Frob") (.obj []) = "● Frob" := by decide
example : toolHeader (.str "Grep") (.obj []) = "● Searched codebase" := by decide
example : toolHeader (.str "Bash") (.obj [("command", .str "ls -l\npwd")])
    = "● `Bash(ls -l)`" := by decide
example : formatToolResultContent (.arr [.obj [("type", .str "text"), ("text", .str "hi")],
      .obj [("type", .str "image")]]) = "hi\n[image]" := by decide
example : renderResultInline "a\nb" false = ["  ⎿  a", "     b", ""] := by decide
example : renderResultInline "boom" true = ["  ⎿  **Error:** boom", ""] := by decide
example : renderToolWithResult "H" "" false = ["H", ""] := by decide
example : renderToolWithResult "H" "a\nb\nc\nd" false
    = ["H", "  ⎿  a", "     b", "     c", "     d", ""] := by decide
example : renderToolWithResult "H<i>" "a\nb\nc\nd\ne" false
    = ["<details>", "<summary>H&lt;i&gt;</summary>",
       "<pre><code>a\nb\nc\nd\ne</code></pre>", "</details>", "<br>", ""] := by decide
example : renderEditBlock "● `Update(f)`" "a" "b" "" false
    = ["● `Update(f)`", "```diff", "@@ -1 +1 @@", "-a", "+b", "```", ""] := by decide

/-!
### Items, the tool-result index, and the renderer
-/

/-- A grouped item, the unit the renderer consumes
(`group_assistant_records` output): `("user", text, timestamp)`,
`("assistant", blocks, timestamp)` or `("tool_result", block, timestamp)`.
Timestamps are carried as raw JSON values; the renderer never reads
them. -/
inductive Item where
  | user (text : String) (timestamp : JValue)
  | assistant (blocks : List JValue) (timestamp : JValue)
  | toolResult (tr : JValue) (timestamp : JValue)
deriving DecidableEq

/-- Insert into the tool-result index (Python dict assignment: overwrite in
place if the key is present, else append; last write wins). -/
def mapInsert (m : List (JValue × String × Bool)) (k : JValue)
    (v : String × Bool) : List (JValue × String × Bool) :=
  if m.any (fun e => e.1 = k) then
    m.map (fun e => if e.1 = k then (k, v) else e)
  else m ++ [(k, v)]

/-- `tool_results_map.get(tool_id)` followed by the source's
`result[0] if result else ""` / `result[1] if result else False`
destructuring (a stored pair is always truthy). -/
def lookupResult (m : List (JValue × String × Bool)) (k : JValue) :
    String × Bool :=
  match m.find? (fun e => e.1 = k) with
  | some e => e.2
  | none => ("", false)

/-- One iteration of the first pass of `render_markdown` (lines 299-306):
a `tool_result` item contributes its stripped text under its
`tool_use_id`; other items contribute nothing.  The `is_error` value is
stored raw in the source and only ever tested for truthiness, so the
index stores its truthiness. -/
def resultsStep (m : List (JValue × String × Bool)) :
    Item → List (JValue × String × Bool)
  | .toolResult tr _ =>
    let content := pyStrip (formatToolResultContent (tr.getD "content" (.str "")))
    let tid := tr.getD "tool_use_id" (.str "")
    if truthy tid then
      mapInsert m tid (content, truthy (tr.getD "is_error" (.bool false)))
    else m
  | _ => m

/-- First pass of `render_markdown` (lines 297-306): collect tool results
keyed by `tool_use_id`. -/
def buildResultsMap (items : List Item) : List (JValue × String × Bool) :=
  items.foldl resultsStep []

/-- The per-content-block body of the second pass of `render_markdown`
(lines 347-404), as a fold step over the accumulated lines. -/
def renderBlock (resMap : List (JValue × String × Bool))
    (lines : List String) (block : JValue) : List String :=
  if ¬ block.isObj then lines
  else
    let btype := block.getD "type" (.str "")
    if btype = .str "thinking" then lines
    else if btype = .str "text" then
      let text := unescapeHtml (pyStrip (asStr (block.getD "text" (.str ""))))
      if text = "" then lines
      else
        (if lines ≠ [] ∧ lines.getLast? ≠ some "" then lines ++ [""] else lines)
          ++ [text, ""]
    else if btype = .str "tool_use" then
      let toolName := block.getD "name" (.str "unknown")
      let toolInput := block.getD "input" (.obj [])
      let header := toolHeader toolName toolInput
      let toolId := block.getD "id" (.str "")
      let result := lookupResult resMap toolId
      if toolName = .str "Edit" then
        lines ++ renderEditBlock header
          (asStr (toolInput.getD "old_string" (.str "")))
          (asStr (toolInput.getD "new_string" (.str "")))
          result.1 result.2
      else
        lines ++ renderToolWithResult header result.1 result.2
    else lines

/-- The per-item body of the second pass of `render_markdown`
(lines 309-408), as a fold step over the accumulated lines. -/
def renderItem (resMap : List (JValue × String × Bool))
    (lines : List String) (item : Item) : List String :=
  match item with
  | .user text _ =>
    if pyStartsWith text "This session is being continued from a previous" then
      lines ++
        ["**Context restored from previous session (ran out of context):**",
         "<details>",
         "<summary>Session summary</summary>",
         "",
         String.intercalate "\n" ((pySplitNl text).map (fun line => "> " ++ line)),
         "",
         "</details>",
         "<br>",
         ""]
    else
      lines ++
        ["**User:**\n"
           ++ String.intercalate "\n" ((pySplitNl text).map (fun line => "> " ++ line)),
         ""]
  | .toolResult _ _ => lines
  | .assistant blocks _ =>
    let lines := blocks.foldl (renderBlock resMap) lines
    if lines ≠ [] ∧ lines.getLast? ≠ some "" then lines ++ [""] else lines

/-- `render_markdown(items)` (line 287): two passes — build the tool-result
index, then render every item — joined with newlines. -/
def renderMarkdown (items : List Item) : String :=
  String.intercalate "\n" (items.foldl (renderItem (buildResultsMap items)) [])

/-!
### Record classification and grouping
-/

/-- `SKIP_TYPES` (line 21). -/
def SKIP_TYPES : List String :=
  ["file-history-snapshot", "queue-operation", "progress", "system"]

/-- `should_skip(record)` (line 51): skip-listed `type` or truthy `isMeta`
(`record.get("isMeta")` defaults to `None`). -/
def shouldSkip (record : JValue) : Bool :=
  (match record.getD "type" (.str "") with
   | .str t => SKIP_TYPES.contains t
   | _ => false)
  || truthy (record.getD "isMeta" .null)

/-- State of the `group_assistant_records` loop: the output item list and
the pending assistant buffers.  The source keeps a dict plus a key-order
list; since keys are unique, one insertion-ordered association list models
both.  A key is either a truthy message id (`Sum.inl`) or, for a record
with no truthy id, the record's identity (`id(record)` in the source),
modelled by the record's stream index (`Sum.inr`), equally unique. -/
structure GroupState where
  items : List Item
  groups : List ((JValue ⊕ Nat) × List JValue × JValue)
deriving DecidableEq

/-- Flush pending assistant buffers into items in first-seen order
(lines 87-91 and 137-139). -/
def flushGroups (st : GroupState) : GroupState :=
  ⟨st.items ++ st.groups.map (fun g => Item.assistant g.2.1 g.2.2), []⟩

/-- One iteration of the `group_assistant_records` loop (lines 74-134) on
the indexed record `ir`. -/
def groupStep (st : GroupState) (ir : Nat × JValue) : GroupState :=
  let record := ir.2
  if shouldSkip record then st
  else
    let msg := record.getD "message" (.obj [])
    if ¬ msg.isObj then st
    else
      let timestamp := record.getD "timestamp" (.str "")
      let rtype := record.getD "type" (.str "")
      if rtype = .str "user" then
        let st := flushGroups st
        let content := msg.getD "content" (.str "")
        let role := msg.getD "role" (.str "")
        if role = .str "user" then
          match content with
          | .str s =>
            let text := pyStrip s
            if text ≠ "" then ⟨st.items ++ [.user text timestamp], st.groups⟩
            else st
          | .arr blocks =>
            let textParts := blocks.filterMap (fun block =>
              match block with
              | .obj _ =>
                if block.getD "type" (.str "") = .str "text" then
                  let t := pyStrip (asStr (block.getD "text" (.str "")))
                  if t ≠ "" then some t else none
                else none
              | _ => none)
            let toolResults := blocks.filter (fun block =>
              block.isObj ∧ block.getD "type" (.str "") = .str "tool_result")
            let st := if textParts ≠ [] then
                ⟨st.items ++ [.user (String.intercalate "\n" textParts) timestamp],
                 st.groups⟩
              else st
            ⟨st.items ++ toolResults.map (fun tr => Item.toolResult tr timestamp),
             st.groups⟩
          | _ => st
        else st
      else if rtype = .str "assistant" then
        let msgId := msg.getD "id" (.str "")
        match msg.getD "content" (.arr []) with
        | .arr blocks =>
          if truthy msgId ∧ st.groups.any (fun g => g.1 = Sum.inl msgId) then
            ⟨st.items, st.groups.map (fun g =>
              if g.1 = Sum.inl msgId then (g.1, g.2.1 ++ blocks, g.2.2) else g)⟩
          else
            let key : JValue ⊕ Nat :=
              if truthy msgId then Sum.inl msgId else Sum.inr ir.1
            ⟨st.items, st.groups ++ [(key, blocks, timestamp)]⟩
        | _ => st
      else st

/-- `group_assistant_records` on an already-enumerated record stream (the
index only feeds the `id(record)` fallback key). -/
def groupFromEnum (ers : List (Nat × JValue)) : List Item :=
  (flushGroups (ers.foldl groupStep ⟨[], []⟩)).items

/-- `group_assistant_records(records)` (line 60). -/
def groupAssistantRecords (records : List JValue) : List Item :=
  groupFromEnum records.enum

/-!
### Header rendering, JSONL parsing and the main entry
-/

/-- Truthiness of an optional CLI string (`argparse` default `None`; both
`None` and `""` are falsy). -/
def optStr (o : Option String) : String := o.getD ""

/-- `re.search(r'T(\d{2}:\d{2})', start_time)` (line 420): the first
`T` followed by two digits, a colon and two digits; returns group 1.
(`\d` is modelled as an ASCII digit.) -/
def findTimeMatch : List Char → Option String
  | [] => none
  | c :: cs =>
    match c, cs with
    | 'T', a :: b :: ':' :: d :: e :: _ =>
      if a.isDigit ∧ b.isDigit ∧ d.isDigit ∧ e.isDigit then
        some (String.mk [a, b, ':', d, e])
      else findTimeMatch cs
    | _, _ => findTimeMatch cs

/-- `render_header(...)` (line 413): the title block prepended to the
rendered body. -/
def renderHeader (sessionId dateStr startTime agentType agentId :
    Option String) : String :=
  let shortSession :=
    if optStr sessionId ≠ "" then pyTake (optStr sessionId) 8 else "unknown"
  let dateDisplay0 :=
    if optStr dateStr ≠ "" then optStr dateStr else "unknown date"
  let dateDisplay :=
    if optStr startTime ≠ "" then
      match findTimeMatch (optStr startTime).data with
      | some hm => dateDisplay0 ++ " " ++ hm
      | none => dateDisplay0
    else dateDisplay0
  let parts :=
    if optStr agentType ≠ "" then
      let shortAgent :=
        if optStr agentId ≠ "" then pyTake (optStr agentId) 8 else ""
      let title0 := "# Subagent: " ++ optStr agentType
      let title1 :=
        if shortAgent ≠ "" then title0 ++ " `" ++ shortAgent ++ "`" else title0
      [title1 ++ " — " ++ dateDisplay, "",
       "*Parent session: `" ++ shortSession ++ "`*", "", "---", ""]
    else
      ["# Session `" ++ shortSession ++ "` — " ++ dateDisplay, "", "---", ""]
  String.intercalate "\n" parts

/-- JSON whitespace accepted between tokens by `json.loads`. -/
def jsonWs : List Char := [' ', '\t', '\n', '\r']

/-- Hex digit value, for `\uXXXX` string escapes. -/
def hexVal (c : Char) : Option Nat :=
  if '0' ≤ c ∧ c ≤ '9' then some (c.toNat - '0'.toNat)
  else if 'a' ≤ c ∧ c ≤ 'f' then some (c.toNat - 'a'.toNat + 10)
  else if 'A' ≤ c ∧ c ≤ 'F' then some (c.toNat - 'A'.toNat + 10)
  else none

/-- Parse the remainder of a JSON string literal (after the opening
quote).  Control characters are rejected (`json.loads` is strict);
surrogate-pair combination is not modelled. -/
def parseJStringAux : List Char → List Char → Option (String × List Char)
  | _, [] => none
  | acc, '"' :: rest => some (String.mk acc.reverse, rest)
  | acc, '\\' :: esc =>
    match esc with
    | '"' :: rest => parseJStringAux ('"' :: acc) rest
    | '\\' :: rest => parseJStringAux ('\\' :: acc) rest
    | '/' :: rest => parseJStringAux ('/' :: acc) rest
    | 'b' :: rest => parseJStringAux ('\x08' :: acc) rest
    | 'f' :: rest => parseJStringAux ('\x0c' :: acc) rest
    | 'n' :: rest => parseJStringAux ('\n' :: acc) rest
    | 'r' :: rest => parseJStringAux ('\r' :: acc) rest
    | 't' :: rest => parseJStringAux ('\t' :: acc) rest
    | 'u' :: h1 :: h2 :: h3 :: h4 :: rest =>
      match hexVal h1, hexVal h2, hexVal h3, hexVal h4 with
      | some a, some b, some c, some d =>
        parseJStringAux (Char.ofNat (((a * 16 + b) * 16 + c) * 16 + d) :: acc) rest
      | _, _, _, _ => none
    | _ => none
  | acc, c :: rest =>
    if c.toNat < 32 then none else parseJStringAux (c :: acc) rest

/-- Consume a run of ASCII digits. -/
def skipDigits : List Char → List Char
  | [] => []
  | c :: rest => if c.isDigit then skipDigits rest else c :: rest

/-- Consume a run of ASCII digits, returning their value. -/
def takeDigits (acc : Nat) : List Char → Nat × List Char
  | [] => (acc, [])
  | c :: rest =>
    if c.isDigit then takeDigits (acc * 10 + (c.toNat - '0'.toNat)) rest
    else (acc, c :: rest)

/-- Optional fraction part of a JSON number (consumed, not represented). -/
def parseFrac : List Char → Option (List Char)
  | '.' :: c :: rest => if c.isDigit then some (skipDigits rest) else none
  | '.' :: [] => none
  | cs => some cs

/-- Exponent digits after `e`/`E` and an optional sign. -/
def parseExpTail (cs : List Char) : Option (List Char) :=
  let cs := match cs with
    | '+' :: r => r
    | '-' :: r => r
    | r => r
  match cs with
  | c :: rest => if c.isDigit then some (skipDigits rest) else none
  | [] => none

/-- Optional exponent part of a JSON number (consumed, not represented). -/
def parseExp : List Char → Option (List Char)
  | 'e' :: rest => parseExpTail rest
  | 'E' :: rest => parseExpTail rest
  | cs => some cs

/-- Does the list have a digit in second position (leading-zero check)? -/
def hasSecondDigit : List Char → Bool
  | _ :: d :: _ => d.isDigit
  | _ => false

/-- Parse a JSON number.  The value is its integer part (fraction and
exponent are validated and discarded; no claim depends on numerics). -/
def parseJNum (cs : List Char) : Option (JValue × List Char) :=
  let signed := match cs with
    | '-' :: rest => (true, rest)
    | _ => (false, cs)
  match signed.2 with
  | c :: _ =>
    if ¬ c.isDigit then none
    else if c = '0' ∧ hasSecondDigit signed.2 then none
    else
      let (n, rest) := takeDigits 0 signed.2
      match parseFrac rest with
      | none => none
      | some rest2 =>
        match parseExp rest2 with
        | none => none
        | some rest3 =>
          some (.num (if signed.1 then -(n : Int) else (n : Int)), rest3)
  | [] => none

mutual

/-- Recursive-descent `json.loads` for one value, fuel-structural (the
nonstandard `NaN`/`Infinity` extensions are not modelled; no transcript
claim depends on them). -/
def parseJValue : Nat → List Char → Option (JValue × List Char)
  | 0, _ => none
  | fuel + 1, cs =>
    match cs.dropWhile (jsonWs.contains ·) with
    | [] => none
    | 'n' :: 'u' :: 'l' :: 'l' :: rest => some (.null, rest)
    | 't' :: 'r' :: 'u' :: 'e' :: rest => some (.bool true, rest)
    | 'f' :: 'a' :: 'l' :: 's' :: 'e' :: rest => some (.bool false, rest)
    | '"' :: rest =>
      match parseJStringAux [] rest with
      | some (s, r) => some (.str s, r)
      | none => none
    | '[' :: rest =>
      (match rest.dropWhile (jsonWs.contains ·) with
       | ']' :: r => some (.arr [], r)
       | r => parseJArrItems fuel r [])
    | '\x7b' :: rest =>
      (match rest.dropWhile (jsonWs.contains ·) with
       | '\x7d' :: r => some (.obj [], r)
       | r => parseJObjItems fuel r [])
    | other => parseJNum other

/-- Elements of a JSON array after `[` (at least one element). -/
def parseJArrItems : Nat → List Char → List JValue →
    Option (JValue × List Char)
  | 0, _, _ => none
  | fuel + 1, cs, acc =>
    match parseJValue fuel cs with
    | none => none
    | some (v, rest) =>
      match rest.dropWhile (jsonWs.contains ·) with
      | ',' :: r => parseJArrItems fuel r (acc ++ [v])
      | ']' :: r => some (.arr (acc ++ [v]), r)
      | _ => none

/-- Entries of a JSON object after `{` (at least one entry). -/
def parseJObjItems : Nat → List Char → List (String × JValue) →
    Option (JValue × List Char)
  | 0, _, _ => none
  | fuel + 1, cs, acc =>
    match cs.dropWhile (jsonWs.contains ·) with
    | '"' :: rest =>
      (match parseJStringAux [] rest with
       | none => none
       | some (k, r1) =>
         match r1.dropWhile (jsonWs.contains ·) with
         | ':' :: r2 =>
           (match parseJValue fuel r2 with
            | none => none
            | some (v, r3) =>
              match r3.dropWhile (jsonWs.contains ·) with
              | ',' :: r4 => parseJObjItems fuel r4 (acc ++ [(k, v)])
              | '\x7d' :: r4 => some (.obj (acc ++ [(k, v)]), r4)
              | _ => none)
         | _ => none)
    | _ => none

end

/-- `json.loads(line)`: parse one JSON value and require only whitespace
after it.  The fuel bound `3 * length + 3` exceeds the number of parser
steps any input can take (each step consumes input or descends). -/
def jsonParse (s : String) : Option JValue :=
  match parseJValue (3 * s.data.length + 3) s.data with
  | some (v, rest) =>
    if rest.dropWhile (jsonWs.contains ·) = [] then some v else none
  | none => none

/-- `parse_jsonl` (line 32) on the transcript text: one record per
non-blank line, lines that fail to parse are dropped. -/
def parseJsonl (input : String) : List JValue :=
  (pySplitNl input).filterMap (fun rawLine =>
    let rawLine := pyStrip rawLine
    if rawLine = "" then none else jsonParse rawLine)

/-- The converter's invocation parameters (session id, date string, start
timestamp, agent type, agent id), as passed by `main` to
`render_header`. -/
structure ConvArgs where
  sessionId : Option String
  dateStr : Option String
  startTime : Option String
  agentType : Option String
  agentId : Option String
deriving DecidableEq

/-- The body of `main` (lines 478-494) after argument parsing, given the
transcript text and the prior content of the output file (`none` when the
file does not exist).  Returns the output file's content after the run
(`main` reports success on every run whose transcript file exists; the
model takes the transcript text as given).  Zero parsed records: create
the file empty only if absent; otherwise write header plus rendered
body. -/
def runConverter (transcript : String) (args : ConvArgs)
    (existingOutput : Option String) : Option String :=
  let records := parseJsonl transcript
  if records = [] then
    match existingOutput with
    | none => some ""
    | some s => some s
  else
    some (renderHeader args.sessionId args.dateStr args.startTime
        args.agentType args.agentId
      ++ renderMarkdown (groupAssistantRecords records))

example : jsonParse "\x7b\"a\": [1, true, null, \"x\\n\"]\x7d"
    = some (.obj [("a", .arr [.num 1, .bool true, .null, .str "x\n"])]) := by
  decide
example : jsonParse "not json" = none := by decide
example : jsonParse "\x7b\"a\": 1" = none := by decide
example : jsonParse "1 2" = none := by decide
example : jsonParse "-3.5e2" = some (.num (-3)) := by decide
example : parseJsonl "" = [] := by decide
example : parseJsonl "\n \n" = [] := by decide
example : parseJsonl "null\ngarbage\n42" = [.null, .num 42] := by decide

example : renderMarkdown (groupAssistantRecords
      [.obj [("type", .str "user"),
             ("message", .obj [("role", .str "user"),
                               ("content", .str "Hello, how are you?")]),
             ("timestamp", .str "2026-02-16T09:00:00Z")],
       .obj [("type", .str "assistant"),
             ("message", .obj [("id", .str "m1"),
                               ("content", .arr [.obj [("type", .str "text"),
                                 ("text", .str "Fine, thanks!")]])])]])
    = "**User:**\n> Hello, how are you?\n\nFine, thanks!\n" := by decide

example : renderHeader (some "abcdef1234") (some "2026-02-16")
      (some "2026-02-16T09:30:00Z") none none
    = "# Session `abcdef12` — 2026-02-16 09:30\n\n---\n" := by decide

example : renderHeader (some "abcdef1234") (some "2026-02-16") none
      (some "Explore") (some "agent9999x")
    = "# Subagent: Explore `agent999` — 2026-02-16\n\n*Parent session: `abcdef12`*\n\n---\n" := by
  decide

/-!
### The claims
-/

/-- C1.  The converter is a pure function of the transcript text, the
invocation parameters and the prior state of the output file: two runs on
byte-identical input text and identical parameters produce byte-identical
output documents. -/
theorem converter_deterministic (t₁ t₂ : String) (a₁ a₂ : ConvArgs)
    (e : Option String) (ht : t₁ = t₂) (ha : a₁ = a₂) :
    runConverter t₁ a₁ e = runConverter t₂ a₂ e := by
  rw [ht, ha]

/-- Witness for C1 at a concrete transcript and concrete parameters. -/
theorem converter_deterministic_witness :
    ("null" : String) = "null" ∧
      runConverter "null" ⟨some "s", some "d", none, none, none⟩ none
        = runConverter "null" ⟨some "s", some "d", none, none, none⟩ none :=
  ⟨rfl, converter_deterministic "null" "null" _ _ none rfl rfl⟩

/-- C6.  On an input with zero parseable records the run succeeds and
leaves the output file existing and exactly empty; the file is written
only if it did not already exist (prior content is preserved). -/
theorem empty_input_empty_output (t : String) (a : ConvArgs)
    (h : parseJsonl t = []) :
    runConverter t a none = some "" ∧
      (∀ prior : String, runConverter t a (some prior) = some prior) := by
  refine ⟨?_, fun prior => ?_⟩ <;> simp [runConverter, h]

/-- Witness for C6: the empty transcript parses to zero records, the
output file is created empty, and an existing output file is kept. -/
theorem empty_input_empty_output_witness :
    parseJsonl "" = [] ∧
      runConverter "" ⟨none, none, none, none, none⟩ none = some "" ∧
      runConverter "" ⟨none, none, none, none, none⟩ (some "old") = some "old" :=
  ⟨by decide,
   (empty_input_empty_output "" ⟨none, none, none, none, none⟩ (by decide)).1,
   (empty_input_empty_output "" ⟨none, none, none, none, none⟩ (by decide)).2 "old"⟩

/-- C9.  Every line of the emitted fenced diff body of an edit-type tool
call — `diffBody` is exactly the list wrapped in the ```diff fence by
`renderEditBlock` — starts with neither `---` nor `+++`: the file-header
lines are always stripped before emission. -/
theorem edit_diff_no_file_headers (old new_ l : String)
    (hl : l ∈ diffBody old new_) :
    pyStartsWith l "---" = false ∧ pyStartsWith l "+++" = false := by
  have := List.of_mem_filter hl
  simp only [decide_eq_true_eq, not_or] at this
  exact ⟨by simpa using this.1, by simpa using this.2⟩

/-- Witness for C9 at a concrete edit: the hunk header line of the diff of
`"a"` against `"b"` is in the diff body and carries no file-header
prefix. -/
theorem edit_diff_no_file_headers_witness :
    "@@ -1 +1 @@" ∈ diffBody "a" "b" ∧
      pyStartsWith "@@ -1 +1 @@" "---" = false ∧
      pyStartsWith "@@ -1 +1 @@" "+++" = false :=
  ⟨by decide, edit_diff_no_file_headers "a" "b" "@@ -1 +1 @@" (by decide)⟩

/-- C10.  The file-header filter removes every diff line starting with
`---` or `+++`, including genuine content lines: deleting the line
`"--gone"` produces the diff line `"---gone"`, which is dropped from the
emitted body, so the diff under-reports the change. -/
theorem edit_diff_filter_drops_content :
    (∀ old new_ l, l ∈ unifiedDiff 2 (pySplitlines old) (pySplitlines new_) →
        (pyStartsWith l "---" = true ∨ pyStartsWith l "+++" = true) →
        l ∉ diffBody old new_) ∧
      "---gone" ∈ unifiedDiff 2 (pySplitlines "--gone") (pySplitlines "kept") ∧
      "-" ++ "--gone" = "---gone" ∧
      "---gone" ∉ diffBody "--gone" "kept" ∧
      diffBody "--gone" "kept" = ["@@ -1 +1 @@", "+kept"] := by
  refine ⟨?_, by decide, by decide, by decide, by decide⟩
  intro old new_ l _ hpre hmem
  have := List.of_mem_filter hmem
  simp only [decide_eq_true_eq, not_or] at this
  rcases hpre with h | h
  · exact absurd h (by simpa using this.1)
  · exact absurd h (by simpa using this.2)

/-- Witness for C10's universally quantified part at a concrete input: the
`"--- "` file-header line of the diff of `"a"` against `"b"` is not in the
filtered body. -/
theorem edit_diff_filter_drops_content_witness :
    "--- " ∉ diffBody "a" "b" :=
  edit_diff_filter_drops_content.1 "a" "b" "--- " (by decide) (Or.inl (by decide))

/-- Every line appended by `_render_result_inline` is the trailing blank
line or carries an indentation prefix, so it is never the ```diff fence
opener. -/
theorem renderResultInline_ne_fence (c : String) (e : Bool) :
    ∀ l ∈ renderResultInline c e, l ≠ "```diff" := by
  intro l hl heq
  simp only [renderResultInline, List.mem_append, List.mem_map,
    List.mem_singleton] at hl
  rcases hl with ⟨ir, _, rfl⟩ | rfl
  · have hd := congrArg (fun s => s.data.head?) heq
    dsimp only at hd
    split at hd
    · split at hd
      · exact absurd (show (some ' ' : Option Char) = some '`' from hd) (by decide)
      · exact absurd (show (some ' ' : Option Char) = some '`' from hd) (by decide)
    · exact absurd (show (some ' ' : Option Char) = some '`' from hd) (by decide)
  · exact absurd heq (by decide)

/-- C3 (amended).  For an edit-type tool call the renderer always emits
the header first, and it emits a fenced diff block if and only if at least
one of the old/new strings is non-empty (the source tests `old or new`)
and the header-stripped unified diff still has at least one line. -/
theorem edit_header_and_fence_iff (header old new_ rc : String) (e : Bool) :
    (renderEditBlock header old new_ rc e).head? = some header ∧
      ("```diff" ∈ (renderEditBlock header old new_ rc e).tail ↔
        ((old ≠ "" ∨ new_ ≠ "") ∧ diffBody old new_ ≠ [])) := by
  have hY : ∀ l ∈ (if rc ≠ "" then
      renderResultInline (cleanResultText rc) e else [""]), l ≠ "```diff" := by
    split
    · exact renderResultInline_ne_fence _ _
    · intro l hl
      simp only [List.mem_singleton] at hl
      subst hl
      decide
  constructor
  · simp [renderEditBlock]
  · unfold renderEditBlock
    rw [List.append_assoc, List.singleton_append, List.tail_cons]
    constructor
    · intro hmem
      rcases List.mem_append.mp hmem with hx | hy
      · by_cases hc : old ≠ "" ∨ new_ ≠ ""
        · by_cases hb : diffBody old new_ ≠ []
          · exact ⟨hc, hb⟩
          · rw [if_pos hc, if_neg hb] at hx
            exact absurd hx (List.not_mem_nil _)
        · rw [if_neg hc] at hx
          exact absurd hx (List.not_mem_nil _)
      · exact absurd rfl (hY _ hy)
    · rintro ⟨hc, hb⟩
      rw [if_pos hc, if_pos hb]
      exact List.mem_append_left _ (List.mem_cons_self _ _)

/-- Counterexample to C3 as stated: with `old_string = "x"` and
`new_string = ""` only one of the two fields is non-empty, yet the
renderer emits a fenced diff block (the source tests `old or new`, not
both), and the diff body is the non-empty deletion hunk. -/
theorem edit_fence_counterexample :
    "```diff" ∈ (renderEditBlock "● `Update(f)`" "x" "" "" false).tail ∧
      ¬ (("x" : String) ≠ "" ∧ ("" : String) ≠ "") ∧
      diffBody "x" "" = ["@@ -1 +0,0 @@", "-x"] := by
  refine ⟨by decide, by simp, by decide⟩

/-- C4.  For a non-edit tool call whose paired result is non-empty after
error-tag stripping and trimming: at most 4 result lines render inline
(header line, then the result under the `⎿` marker), 5 or more render as
a collapsible block whose summary is the HTML-escaped header with no
separate header line; the boundary constant is exactly 4. -/
theorem tool_result_threshold (header rc : String) (e : Bool)
    (h : cleanResultText rc ≠ "") :
    ((pySplitNl (cleanResultText rc)).length ≤ 4 →
        renderToolWithResult header rc e
          = header :: renderResultInline (cleanResultText rc) e) ∧
      (4 < (pySplitNl (cleanResultText rc)).length →
        renderToolWithResult header rc e
          = renderResultCollapsed (cleanResultText rc) (escapeHtml header) e ∧
          (renderToolWithResult header rc e).head? = some "<details>") ∧
      INLINE_RESULT_MAX_LINES = 4 := by
  have hrc : rc ≠ "" := by
    intro h0
    rw [h0] at h
    exact h (by decide)
  refine ⟨fun hle => ?_, fun hgt => ?_, rfl⟩
  · unfold renderToolWithResult
    rw [if_pos hrc, if_neg (by simpa using h), if_pos (by simpa using hle)]
  · have hcol : renderToolWithResult header rc e
        = renderResultCollapsed (cleanResultText rc) (escapeHtml header) e := by
      unfold renderToolWithResult
      rw [if_pos hrc, if_neg (by simpa using h),
        if_neg (by simp [INLINE_RESULT_MAX_LINES]; omega)]
    exact ⟨hcol, by rw [hcol]; rfl⟩

/-- Witness for C4 at the boundary: a 4-line result renders inline, a
5-line result collapses. -/
theorem tool_result_threshold_witness :
    cleanResultText "a\nb\nc\nd" ≠ "" ∧
      renderToolWithResult "H" "a\nb\nc\nd" false
        = "H" :: renderResultInline (cleanResultText "a\nb\nc\nd") false ∧
      renderToolWithResult "H" "a\nb\nc\nd\ne" false
        = renderResultCollapsed (cleanResultText "a\nb\nc\nd\ne")
            (escapeHtml "H") false :=
  ⟨by decide,
   (tool_result_threshold "H" "a\nb\nc\nd" false (by decide)).1 (by decide),
   ((tool_result_threshold "H" "a\nb\nc\nd\ne" false (by decide)).2.1
     (by decide)).1⟩

/-- C5 (amended).  For a non-edit `tool_use` block whose id has no entry
in the tool-result index, the lookup yields the empty result with the
error flag false, and the renderer appends exactly the header line and one
blank line. -/
theorem missing_result_header_only (m : List (JValue × String × Bool))
    (lines : List String) (b : JValue)
    (htype : b.getD "type" (.str "") = .str "tool_use")
    (hname : b.getD "name" (.str "unknown") ≠ .str "Edit")
    (hlook : m.find? (fun e => e.1 = b.getD "id" (.str "")) = none) :
    lookupResult m (b.getD "id" (.str "")) = ("", false) ∧
      renderBlock m lines b
        = lines ++ [toolHeader (b.getD "name" (.str "unknown"))
            (b.getD "input" (.obj [])), ""] := by
  have hobj : b.isObj = true := by
    cases b <;> simp_all [JValue.getD, JValue.isObj]
  refine ⟨by simp [lookupResult, hlook], ?_⟩
  unfold renderBlock
  rw [if_neg (by simp [hobj]), htype,
    if_neg (by decide), if_neg (by decide), if_pos rfl, if_neg hname]
  simp [lookupResult, hlook, renderToolWithResult]

/-- An edit-type `tool_use` block with non-empty old/new strings and no
entry in the tool-result index. -/
def editToolBlock : JValue :=
  .obj [("type", .str "tool_use"), ("name", .str "Edit"), ("id", .str "tu1"),
        ("input", .obj [("file_path", .str "f"), ("old_string", .str "a"),
                        ("new_string", .str "b")])]

/-- Counterexample to C5 as stated: an edit-type `tool_use` block with an
absent result does not render as only a header plus one blank line — the
renderer also emits the fenced diff block. -/
theorem missing_result_edit_counterexample :
    renderBlock [] [] editToolBlock
        = ["● `Update(f)`", "```diff", "@@ -1 +1 @@", "-a", "+b", "```", ""] ∧
      renderBlock [] [] editToolBlock ≠ ["● `Update(f)`", ""] := by
  exact ⟨by decide, by decide⟩

/-- A non-edit `tool_use` block with no entry in the tool-result index. -/
def readToolBlock : JValue :=
  .obj [("type", .str "tool_use"), ("name", .str "Read"), ("id", .str "tu9"),
        ("input", .obj [("file_path", .str "/tmp/x")])]

/-- Witness for the amended C5 at a concrete `Read` block with an empty
index. -/
theorem missing_result_header_only_witness :
    lookupResult [] (readToolBlock.getD "id" (.str "")) = ("", false) ∧
      renderBlock [] [] readToolBlock
        = [] ++ [toolHeader (readToolBlock.getD "name" (.str "unknown"))
            (readToolBlock.getD "input" (.obj [])), ""] :=
  missing_result_header_only [] [] readToolBlock (by decide) (by decide)
    (by decide)

/-!
### C7 and C8: records and blocks that contribute nothing
-/

/-- Folding a step that ignores the elements a filter would drop gives the
same result as folding over the filtered list. -/
theorem foldl_eq_foldl_filter {α β : Type} (f : β → α → β) (p : α → Bool)
    (hid : ∀ b a, p a = false → f b a = b) :
    ∀ (l : List α) (init : β), l.foldl f init = (l.filter p).foldl f init := by
  intro l
  induction l with
  | nil => intro init; rfl
  | cons x xs ih =>
    intro init
    by_cases hx : p x = true
    · simp [List.filter_cons, hx, ih]
    · have hx' : p x = false := by simpa using hx
      simp [List.filter_cons, hx', hid init x hx', ih]

/-- A skip-listed or meta-flagged record is a no-op of the grouping
loop. -/
theorem groupStep_skip (st : GroupState) (ir : Nat × JValue)
    (h : shouldSkip ir.2 = true) : groupStep st ir = st := by
  unfold groupStep
  rw [if_pos h]

/-- C7.  Records whose kind is in the skip set or that carry the meta flag
contribute nothing: grouping the stream equals grouping the stream with
all such records removed (indices kept), and hence the rendered document
is unchanged. -/
theorem skipped_records_never_contribute (records : List JValue) :
    groupAssistantRecords records
        = groupFromEnum (records.enum.filter (fun er => ¬ shouldSkip er.2)) ∧
      renderMarkdown (groupAssistantRecords records)
        = renderMarkdown (groupFromEnum (records.enum.filter
            (fun er => ¬ shouldSkip er.2))) := by
  have h : groupAssistantRecords records
      = groupFromEnum (records.enum.filter (fun er => ¬ shouldSkip er.2)) := by
    unfold groupAssistantRecords groupFromEnum
    rw [foldl_eq_foldl_filter groupStep (fun er => ¬ shouldSkip er.2)
      (fun st er her => groupStep_skip st er (by simpa using her))]
  exact ⟨h, by rw [h]⟩

/-- Is this content block a `thinking` block (a dict whose `type` is the
string `"thinking"`)?  Such blocks are skipped by the renderer. -/
def isThinkingBlock (b : JValue) : Bool :=
  b.isObj && b.getD "type" (.str "") = .str "thinking"

/-- Remove `thinking` blocks from an assistant item; other items are
unchanged. -/
def eraseThinking : Item → Item
  | .assistant blocks ts => .assistant (blocks.filter (fun b => ¬ isThinkingBlock b)) ts
  | it => it

/-- A `thinking` block is a no-op of the block renderer. -/
theorem renderBlock_thinking (m : List (JValue × String × Bool))
    (lines : List String) (b : JValue) (h : isThinkingBlock b = true) :
    renderBlock m lines b = lines := by
  have hobj : b.isObj = true := by
    simp [isThinkingBlock] at h
    exact h.1
  have htype : b.getD "type" (.str "") = .str "thinking" := by
    simp [isThinkingBlock] at h
    exact h.2
  unfold renderBlock
  rw [if_neg (by simp [hobj]), if_pos htype]

/-- The tool-result index ignores `eraseThinking`. -/
theorem buildResultsMap_eraseThinking (items : List Item) :
    buildResultsMap (items.map eraseThinking) = buildResultsMap items := by
  unfold buildResultsMap
  rw [List.foldl_map]
  congr 1
  funext m it
  cases it <;> rfl

/-- Rendering one item ignores `eraseThinking`. -/
theorem renderItem_eraseThinking (m : List (JValue × String × Bool))
    (lines : List String) (it : Item) :
    renderItem m lines (eraseThinking it) = renderItem m lines it := by
  cases it with
  | user text ts => rfl
  | toolResult tr ts => rfl
  | assistant blocks ts =>
    show renderItem m lines (.assistant (blocks.filter
      (fun b => ¬ isThinkingBlock b)) ts) = _
    unfold renderItem
    dsimp only
    rw [← foldl_eq_foldl_filter (renderBlock m) (fun b => ¬ isThinkingBlock b)
      (fun ls b hb => renderBlock_thinking m ls b (by simpa using hb))]

/-- C8.  `thinking` content blocks contribute nothing to the rendered
output: deleting every thinking block from every assistant item leaves the
rendered document unchanged. -/
theorem thinking_blocks_never_rendered (items : List Item) :
    renderMarkdown (items.map eraseThinking) = renderMarkdown items := by
  unfold renderMarkdown
  rw [buildResultsMap_eraseThinking, List.foldl_map]
  have hfun : (fun (ls : List String) (it : Item) =>
      renderItem (buildResultsMap items) ls (eraseThinking it))
      = renderItem (buildResultsMap items) := by
    funext ls it
    exact renderItem_eraseThinking _ ls it
  rw [hfun]

/-!
### C2: one assistant item per identifier between flush boundaries

`group_assistant_records` flushes all pending assistant buffers whenever a
`user`-typed record (that passes the skip filter and carries a dict
message) arrives, so the one-item-per-identifier invariant holds between
such synchronization boundaries.  The development below characterises the
grouping on a stream with no such boundary.
-/

/-- `isinstance(v, list)` for a parsed JSON value. -/
def JValue.isArr : JValue → Bool
  | .arr _ => true
  | _ => false

/-- Does this record flush the pending assistant buffers?  (A `user`-typed
record that passes the skip filter and carries a dict message,
lines 75-92.) -/
def userFlushes (r : JValue) : Bool :=
  !shouldSkip r && (r.getD "message" (.obj [])).isObj
    && decide (r.getD "type" (.str "") = .str "user")

/-- Does this record open or extend an assistant buffer?  (Passes the skip
filter, has a dict message, `assistant` type and a list content,
lines 120-134.) -/
def assistQualifies (r : JValue) : Bool :=
  !shouldSkip r && (r.getD "message" (.obj [])).isObj
    && decide (r.getD "type" (.str "") = .str "assistant")
    && ((r.getD "message" (.obj [])).getD "content" (.arr [])).isArr

/-- The buffer key of the indexed assistant record `(i, r)`: the message
id when truthy, else the record's identity (stream index). -/
def recKey (i : Nat) (r : JValue) : JValue ⊕ Nat :=
  let msgId := (r.getD "message" (.obj [])).getD "id" (.str "")
  if truthy msgId then Sum.inl msgId else Sum.inr i

/-- The content blocks of an assistant record (defined when
`assistQualifies`). -/
def contentBlocks (r : JValue) : List JValue :=
  match (r.getD "message" (.obj [])).getD "content" (.arr []) with
  | .arr blocks => blocks
  | _ => []

/-- The buffer triple contributed by a qualifying indexed record. -/
def mkTriple (ir : Nat × JValue) : (JValue ⊕ Nat) × List JValue × JValue :=
  (recKey ir.1 ir.2, contentBlocks ir.2, ir.2.getD "timestamp" (.str ""))

/-- The key/blocks/timestamp triples of the qualifying assistant records of
a stream, in encounter order. -/
def qualTriples (records : List JValue) :
    List ((JValue ⊕ Nat) × List JValue × JValue) :=
  (records.enum.filter (fun ir => assistQualifies ir.2)).map mkTriple

/-- Is the buffer key an identity (index) key? -/
def isInr : (JValue ⊕ Nat) → Bool
  | Sum.inr _ => true
  | Sum.inl _ => false

/-- Does the buffer list contain this key? -/
def hasKey (G : List ((JValue ⊕ Nat) × List JValue × JValue))
    (k : JValue ⊕ Nat) : Bool :=
  G.any (fun g => g.1 = k)

/-- Append `bs` to the blocks of the entry keyed `k` (Python
`assistant_groups[msg_id]["blocks"].extend(content)`). -/
def updAt (k : JValue ⊕ Nat) (bs : List JValue)
    (g : (JValue ⊕ Nat) × List JValue × JValue) :
    (JValue ⊕ Nat) × List JValue × JValue :=
  if g.1 = k then (g.1, g.2.1 ++ bs, g.2.2) else g

/-- The buffer update of one qualifying assistant record (lines 126-134):
a truthy message id merges into an existing buffer with that key,
otherwise a fresh buffer is appended (an identity key is always fresh). -/
def insertOrMerge (G : List ((JValue ⊕ Nat) × List JValue × JValue))
    (t : (JValue ⊕ Nat) × List JValue × JValue) :
    List ((JValue ⊕ Nat) × List JValue × JValue) :=
  match t.1 with
  | Sum.inl v =>
    if hasKey G (Sum.inl v) then G.map (updAt (Sum.inl v) t.2.1)
    else G ++ [t]
  | Sum.inr _ => G ++ [t]

/-- Keep the first occurrence of every element, in first-occurrence
order. -/
def firstDedup {α : Type} [DecidableEq α] : List α → List α
  | [] => []
  | x :: xs => x :: (firstDedup xs).filter (fun y => y ≠ x)

/-- All blocks contributed under key `k`, in encounter order. -/
def gatherQ (qs : List ((JValue ⊕ Nat) × List JValue × JValue))
    (k : JValue ⊕ Nat) : List JValue :=
  ((qs.filter (fun t => t.1 = k)).map (fun t => t.2.1)).flatten

/-- The timestamp of the first triple with key `k`. -/
def firstTsQ (qs : List ((JValue ⊕ Nat) × List JValue × JValue))
    (k : JValue ⊕ Nat) : JValue :=
  match qs.find? (fun t => t.1 = k) with
  | some t => t.2.2
  | none => .str ""

theorem mem_firstDedup {α : Type} [DecidableEq α] (l : List α) (x : α) :
    x ∈ firstDedup l ↔ x ∈ l := by
  induction l with
  | nil => simp [firstDedup]
  | cons y ys ih =>
    simp only [firstDedup, List.mem_cons, List.mem_filter, ih]
    constructor
    · rintro (rfl | ⟨hm, _⟩)
      · exact Or.inl rfl
      · exact Or.inr hm
    · rintro (rfl | hm)
      · exact Or.inl rfl
      · by_cases hxy : x = y
        · exact Or.inl hxy
        · exact Or.inr ⟨hm, by simpa using hxy⟩

theorem firstDedup_filter {α : Type} [DecidableEq α] (p : α → Bool)
    (l : List α) : firstDedup (l.filter p) = (firstDedup l).filter p := by
  induction l with
  | nil => rfl
  | cons x xs ih =>
    by_cases hx : p x = true
    · rw [List.filter_cons_of_pos hx]
      show x :: (firstDedup (xs.filter p)).filter (fun y => y ≠ x)
        = (x :: (firstDedup xs).filter (fun y => y ≠ x)).filter p
      rw [List.filter_cons_of_pos hx, ih, List.filter_comm]
    · have hx' : p x = false := by simpa using hx
      rw [List.filter_cons_of_neg (by simp [hx']), ih]
      show (firstDedup xs).filter p
        = (x :: (firstDedup xs).filter (fun y => y ≠ x)).filter p
      rw [List.filter_cons_of_neg (by simp [hx']), List.filter_comm]
      refine (List.filter_eq_self.mpr ?_).symm
      intro a ha
      have hap : p a = true := (List.mem_filter.mp ha).2
      simp only [ne_eq, decide_eq_true_eq]
      intro hax
      rw [hax] at hap
      exact absurd hap (by simp [hx'])

theorem gatherQ_cons (t : (JValue ⊕ Nat) × List JValue × JValue)
    (qs : List ((JValue ⊕ Nat) × List JValue × JValue)) (k : JValue ⊕ Nat) :
    gatherQ (t :: qs) k = (if t.1 = k then t.2.1 else []) ++ gatherQ qs k := by
  by_cases h : t.1 = k
  · simp [gatherQ, List.filter_cons, h]
  · simp [gatherQ, List.filter_cons, h]

theorem firstTsQ_cons_self (t : (JValue ⊕ Nat) × List JValue × JValue)
    (qs : List ((JValue ⊕ Nat) × List JValue × JValue)) (k : JValue ⊕ Nat)
    (h : t.1 = k) : firstTsQ (t :: qs) k = t.2.2 := by
  simp [firstTsQ, List.find?_cons_of_pos, h]

theorem firstTsQ_cons_ne (t : (JValue ⊕ Nat) × List JValue × JValue)
    (qs : List ((JValue ⊕ Nat) × List JValue × JValue)) (k : JValue ⊕ Nat)
    (h : ¬ t.1 = k) : firstTsQ (t :: qs) k = firstTsQ qs k := by
  simp only [firstTsQ]
  rw [List.find?_cons_of_neg _ (by simpa using h)]

theorem hasKey_append (G : List ((JValue ⊕ Nat) × List JValue × JValue))
    (t : (JValue ⊕ Nat) × List JValue × JValue) (x : JValue ⊕ Nat) :
    hasKey (G ++ [t]) x = (hasKey G x || decide (t.1 = x)) := by
  simp [hasKey]

theorem hasKey_map_updAt (G : List ((JValue ⊕ Nat) × List JValue × JValue))
    (k₀ : JValue ⊕ Nat) (bs : List JValue) (x : JValue ⊕ Nat) :
    hasKey (G.map (updAt k₀ bs)) x = hasKey G x := by
  simp only [hasKey, List.any_map]
  congr 1
  funext g
  simp only [Function.comp, updAt]
  split <;> simp_all

theorem hasKey_eq_false_iff (G : List ((JValue ⊕ Nat) × List JValue × JValue))
    (x : JValue ⊕ Nat) : hasKey G x = false ↔ ∀ g ∈ G, g.1 ≠ x := by
  simp [hasKey]

theorem filter_not_hasKey_append (qs' : List (JValue ⊕ Nat))
    (G : List ((JValue ⊕ Nat) × List JValue × JValue))
    (t : (JValue ⊕ Nat) × List JValue × JValue) :
    qs'.filter (fun x => !hasKey (G ++ [t]) x)
      = (qs'.filter (fun x => !hasKey G x)).filter (fun x => x ≠ t.1) := by
  induction qs' with
  | nil => rfl
  | cons x xs ih =>
    by_cases h1 : hasKey G x = true
    · rw [List.filter_cons_of_neg (by simp [hasKey_append, h1]),
        List.filter_cons_of_neg (by simp [h1]), ih]
    · have h1' : hasKey G x = false := by simpa using h1
      by_cases h2 : t.1 = x
      · rw [List.filter_cons_of_neg (by simp [hasKey_append, h2]),
          List.filter_cons_of_pos (by simp [h1']), ih,
          List.filter_cons_of_neg (by simp [h2])]
      · rw [List.filter_cons_of_pos (by simp [hasKey_append, h1', h2]),
          List.filter_cons_of_pos (by simp [h1']), ih,
          List.filter_cons_of_pos (by
            simp only [ne_eq, decide_eq_true_eq]
            exact fun h => h2 h.symm)]

theorem collect_merge_rhs (qs G : List ((JValue ⊕ Nat) × List JValue × JValue))
    (v : JValue) (bs : List JValue) (ts : JValue)
    (hmem : hasKey G (Sum.inl v) = true) :
    (G.map (updAt (Sum.inl v) bs)).map
        (fun g => (g.1, g.2.1 ++ gatherQ qs g.1, g.2.2))
      ++ (firstDedup ((qs.map (fun t => t.1)).filter
            (fun x => !hasKey (G.map (updAt (Sum.inl v) bs)) x))).map
          (fun x => (x, gatherQ qs x, firstTsQ qs x))
    = G.map (fun g =>
        (g.1, g.2.1 ++ gatherQ ((Sum.inl v, bs, ts) :: qs) g.1, g.2.2))
      ++ (firstDedup ((((Sum.inl v, bs, ts) :: qs).map (fun t => t.1)).filter
            (fun x => !hasKey G x))).map
          (fun x => (x, gatherQ ((Sum.inl v, bs, ts) :: qs) x,
            firstTsQ ((Sum.inl v, bs, ts) :: qs) x)) := by
  have hmap : (G.map (updAt (Sum.inl v) bs)).map
      (fun g => (g.1, g.2.1 ++ gatherQ qs g.1, g.2.2))
      = G.map (fun g =>
          (g.1, g.2.1 ++ gatherQ ((Sum.inl v, bs, ts) :: qs) g.1, g.2.2)) := by
    rw [List.map_map]
    refine List.map_congr_left ?_
    intro g _
    show (fun g => (g.1, g.2.1 ++ gatherQ qs g.1, g.2.2)) (updAt (Sum.inl v) bs g)
      = _
    by_cases hgk : g.1 = Sum.inl v
    · simp only [updAt, if_pos hgk, gatherQ_cons]
      rw [if_pos hgk.symm]
      simp [List.append_assoc]
    · simp only [updAt, if_neg hgk, gatherQ_cons]
      rw [if_neg (fun h => hgk h.symm)]
      simp
  have hpred : (fun x => !hasKey (G.map (updAt (Sum.inl v) bs)) x)
      = (fun x => !hasKey G x) := by
    funext x
    rw [hasKey_map_updAt]
  rw [hmap, hpred, show (((Sum.inl v, bs, ts) :: qs).map (fun t => t.1))
      = Sum.inl v :: qs.map (fun t => t.1) from rfl,
    List.filter_cons_of_neg (by simp [hmem])]
  refine congrArg _ (List.map_congr_left ?_)
  intro x hx
  have hxk : hasKey G x = false := by
    simpa using (List.mem_filter.mp ((mem_firstDedup _ _).mp hx)).2
  have hxne : ¬ ((Sum.inl v, bs, ts).1 = x) := by
    intro h
    rw [show Sum.inl v = x from h] at hmem
    rw [hxk] at hmem
    cases hmem
  rw [gatherQ_cons, if_neg hxne, firstTsQ_cons_ne _ _ _ hxne]
  simp

theorem collect_append_rhs (qs G : List ((JValue ⊕ Nat) × List JValue × JValue))
    (k : JValue ⊕ Nat) (bs : List JValue) (ts : JValue)
    (hmem : hasKey G k = false) :
    (G ++ [(k, bs, ts)]).map (fun g => (g.1, g.2.1 ++ gatherQ qs g.1, g.2.2))
      ++ (firstDedup ((qs.map (fun t => t.1)).filter
            (fun x => !hasKey (G ++ [(k, bs, ts)]) x))).map
          (fun x => (x, gatherQ qs x, firstTsQ qs x))
    = G.map (fun g => (g.1, g.2.1 ++ gatherQ ((k, bs, ts) :: qs) g.1, g.2.2))
      ++ (firstDedup ((((k, bs, ts) :: qs).map (fun t => t.1)).filter
            (fun x => !hasKey G x))).map
          (fun x => (x, gatherQ ((k, bs, ts) :: qs) x,
            firstTsQ ((k, bs, ts) :: qs) x)) := by
  have hmapG : G.map (fun g => (g.1, g.2.1 ++ gatherQ qs g.1, g.2.2))
      = G.map (fun g =>
          (g.1, g.2.1 ++ gatherQ ((k, bs, ts) :: qs) g.1, g.2.2)) := by
    refine List.map_congr_left ?_
    intro g hg
    have hgk : ¬ ((k, bs, ts).1 = g.1) := by
      intro h
      exact (hasKey_eq_false_iff G k).mp hmem g hg h.symm
    rw [gatherQ_cons, if_neg hgk]
    simp
  rw [List.map_append, hmapG,
    show (((k, bs, ts) :: qs).map (fun t => t.1))
      = k :: qs.map (fun t => t.1) from rfl,
    List.filter_cons_of_pos (by simp [hmem]),
    show firstDedup (k :: (qs.map (fun t => t.1)).filter (fun x => !hasKey G x))
      = k :: (firstDedup ((qs.map (fun t => t.1)).filter
          (fun x => !hasKey G x))).filter (fun y => y ≠ k) from rfl,
    filter_not_hasKey_append, firstDedup_filter, List.map_cons, List.append_assoc]
  refine congrArg _ ?_
  simp only [List.map_cons, List.map_nil, List.cons_append, List.nil_append]
  refine congrArg₂ (· :: ·) ?_ (List.map_congr_left ?_)
  · rw [gatherQ_cons, if_pos rfl, firstTsQ_cons_self _ _ _ rfl]
  · intro x hx
    have hxk : ¬ ((k, bs, ts).1 = x) := by
      have := (List.mem_filter.mp hx).2
      simp only [ne_eq, decide_eq_true_eq] at this
      exact fun h => this h.symm
    rw [gatherQ_cons, if_neg hxk, firstTsQ_cons_ne _ _ _ hxk]
    simp

/-- Characterization of the assistant-buffer fold: starting from buffers
`G` whose identity keys do not recur in the stream, the final buffer list
is `G` with all merged blocks appended entrywise, followed by one buffer
per new key in first-appearance order, holding the concatenation of all
blocks contributed under that key and the first contributor's
timestamp. -/
theorem collect_characterization
    (qs : List ((JValue ⊕ Nat) × List JValue × JValue)) :
    ∀ G : List ((JValue ⊕ Nat) × List JValue × JValue),
      (∀ t ∈ qs, isInr t.1 = true → hasKey G t.1 = false) →
      List.Pairwise (fun s t => isInr s.1 = true → s.1 ≠ t.1) qs →
      qs.foldl insertOrMerge G
        = G.map (fun g => (g.1, g.2.1 ++ gatherQ qs g.1, g.2.2))
          ++ (firstDedup ((qs.map (fun t => t.1)).filter
                (fun x => !hasKey G x))).map
              (fun x => (x, gatherQ qs x, firstTsQ qs x)) := by
  induction qs with
  | nil =>
    intro G h1 h2
    simp [gatherQ, firstDedup]
  | cons t qs ih =>
    intro G h1 h2
    obtain ⟨hhead, htail⟩ := List.pairwise_cons.mp h2
    obtain ⟨k, bs, ts⟩ := t
    rw [List.foldl_cons]
    rcases k with v | i
    · by_cases hmem : hasKey G (Sum.inl v) = true
      · have hstep : insertOrMerge G (Sum.inl v, bs, ts)
            = G.map (updAt (Sum.inl v) bs) := by
          simp [insertOrMerge, hmem]
        have h1' : ∀ t' ∈ qs, isInr t'.1 = true →
            hasKey (G.map (updAt (Sum.inl v) bs)) t'.1 = false := by
          intro t' ht' hinr
          rw [hasKey_map_updAt]
          exact h1 t' (List.mem_cons_of_mem _ ht') hinr
        rw [hstep, ih _ h1' htail, collect_merge_rhs qs G v bs ts hmem]
      · have hmem' : hasKey G (Sum.inl v) = false := by simpa using hmem
        have hstep : insertOrMerge G (Sum.inl v, bs, ts)
            = G ++ [(Sum.inl v, bs, ts)] := by
          simp [insertOrMerge, hmem']
        have h1' : ∀ t' ∈ qs, isInr t'.1 = true →
            hasKey (G ++ [(Sum.inl v, bs, ts)]) t'.1 = false := by
          intro t' ht' hinr
          rw [hasKey_append]
          have hne : ¬ ((Sum.inl v, bs, ts).1 = t'.1) := by
            intro h
            rcases ht'1 : t'.1 with w | j
            · rw [ht'1] at hinr
              cases hinr
            · rw [ht'1] at h
              cases h
          simp [h1 t' (List.mem_cons_of_mem _ ht') hinr, hne]
        rw [hstep, ih _ h1' htail,
          collect_append_rhs qs G (Sum.inl v) bs ts hmem']
    · have hmem : hasKey G (Sum.inr i) = false :=
        h1 (Sum.inr i, bs, ts) (List.mem_cons_self _ _) rfl
      have hstep : insertOrMerge G (Sum.inr i, bs, ts)
          = G ++ [(Sum.inr i, bs, ts)] := by
        simp [insertOrMerge]
      have h1' : ∀ t' ∈ qs, isInr t'.1 = true →
          hasKey (G ++ [(Sum.inr i, bs, ts)]) t'.1 = false := by
        intro t' ht' hinr
        rw [hasKey_append]
        have hne : ¬ ((Sum.inr i, bs, ts).1 = t'.1) :=
          hhead t' ht' rfl
        simp [h1 t' (List.mem_cons_of_mem _ ht') hinr, hne]
      rw [hstep, ih _ h1' htail,
        collect_append_rhs qs G (Sum.inr i) bs ts hmem]

/-- On a qualifying assistant record, one grouping step leaves items alone
and applies `insertOrMerge` to the buffers. -/
theorem groupStep_eq_insert (st : GroupState) (i : Nat) (r : JValue)
    (hq : assistQualifies r = true) :
    groupStep st (i, r)
      = ⟨st.items, insertOrMerge st.groups
          (recKey i r, contentBlocks r, r.getD "timestamp" (.str ""))⟩ := by
  simp only [assistQualifies, Bool.and_eq_true, Bool.not_eq_true',
    decide_eq_true_eq] at hq
  obtain ⟨⟨⟨hskip, hobj⟩, htype⟩, harr⟩ := hq
  rcases hcontent : (r.getD "message" (.obj [])).getD "content" (.arr [])
    with _ | _ | _ | _ | blocks | _ <;> rw [hcontent] at harr <;>
    try cases harr
  unfold groupStep
  rw [if_neg (by simp [hskip]), if_neg (by simp [hobj]), htype,
    if_neg (by decide), if_pos rfl, hcontent]
  unfold recKey contentBlocks
  rw [hcontent]
  dsimp only
  by_cases htr : truthy ((r.getD "message" (.obj [])).getD "id" (.str "")) = true
  · rw [if_pos htr]
    by_cases hmem : hasKey st.groups
        (Sum.inl ((r.getD "message" (.obj [])).getD "id" (.str ""))) = true
    · rw [if_pos ⟨htr, hmem⟩]
      simp only [insertOrMerge]
      rw [if_pos hmem]
      rfl
    · rw [if_neg (fun h => hmem h.2)]
      simp only [insertOrMerge]
      rw [if_neg hmem]
  · have htr' : truthy ((r.getD "message" (.obj [])).getD "id" (.str ""))
        = false := by simpa using htr
    rw [if_neg (fun h => htr h.1), if_neg htr]
    simp only [insertOrMerge]

/-- A record that neither flushes (not a surviving `user` record) nor
qualifies as an assistant contribution is a no-op of the grouping loop. -/
theorem groupStep_noop (st : GroupState) (i : Nat) (r : JValue)
    (hnu : userFlushes r = false) (hq : assistQualifies r = false) :
    groupStep st (i, r) = st := by
  unfold groupStep
  by_cases hskip : shouldSkip r = true
  · rw [if_pos hskip]
  · have hskip' : shouldSkip r = false := by simpa using hskip
    rw [if_neg hskip]
    dsimp only
    by_cases hobj : (r.getD "message" (.obj [])).isObj = true
    · rw [if_neg (by simp [hobj])]
      have hu : ¬ (r.getD "type" (.str "") = .str "user") := by
        intro h
        rw [userFlushes, hskip', hobj, h] at hnu
        simp at hnu
      rw [if_neg hu]
      by_cases has : r.getD "type" (.str "") = .str "assistant"
      · rw [if_pos has]
        have harr : ((r.getD "message" (.obj [])).getD "content"
            (.arr [])).isArr = false := by
          rw [assistQualifies, hskip', hobj, has] at hq
          simpa using hq
        rcases hcontent : (r.getD "message" (.obj [])).getD "content" (.arr [])
          with _ | _ | _ | _ | blocks | _ <;>
          (rw [hcontent] at harr
           try rfl
           try exact absurd harr (by simp [JValue.isArr]))
      · rw [if_neg has]
    · rw [if_pos (by simp [hobj])]

/-- On a stream with no flush boundary, the grouping fold keeps the item
list and folds `insertOrMerge` over the qualifying triples. -/
theorem groupFold_eq_collect (ers : List (Nat × JValue)) :
    ∀ (its : List Item) (G : List ((JValue ⊕ Nat) × List JValue × JValue)),
      (∀ er ∈ ers, userFlushes er.2 = false) →
      ers.foldl groupStep ⟨its, G⟩
        = ⟨its, ((ers.filter (fun er => assistQualifies er.2)).map
            mkTriple).foldl insertOrMerge G⟩ := by
  induction ers with
  | nil => intro its G _; rfl
  | cons er ers ih =>
    intro its G h
    obtain ⟨i, r⟩ := er
    rw [List.foldl_cons]
    by_cases hq : assistQualifies r = true
    · rw [groupStep_eq_insert ⟨its, G⟩ i r hq,
        List.filter_cons_of_pos (by simpa using hq), List.map_cons,
        List.foldl_cons]
      exact ih its _ (fun er her => h er (List.mem_cons_of_mem _ her))
    · rw [groupStep_noop ⟨its, G⟩ i r (h (i, r) (List.mem_cons_self _ _))
        (by simpa using hq),
        List.filter_cons_of_neg (by simpa using hq)]
      exact ih its G (fun er her => h er (List.mem_cons_of_mem _ her))

/-- Identity (index) keys never recur in the qualifying triples of an
enumerated stream. -/
theorem qualTriples_inr_pairwise (records : List JValue) :
    List.Pairwise (fun s t => isInr s.1 = true → s.1 ≠ t.1)
      (qualTriples records) := by
  unfold qualTriples
  rw [List.pairwise_map]
  have henum : List.Pairwise (fun a b : Nat × JValue => a.1 ≠ b.1)
      records.enum := by
    have h1 := List.nodup_enum_map_fst records
    rw [List.Nodup, List.pairwise_map] at h1
    exact h1
  refine List.Pairwise.filter _ (henum.imp ?_)
  intro a b hab hinr
  simp only [mkTriple, recKey] at hinr ⊢
  by_cases ht : truthy ((a.2.getD "message" (.obj [])).getD "id" (.str ""))
      = true
  · rw [if_pos ht] at hinr
    cases hinr
  · rw [if_neg ht] at hinr ⊢
    by_cases ht2 : truthy ((b.2.getD "message" (.obj [])).getD "id" (.str ""))
        = true
    · rw [if_pos ht2]
      intro hcontra
      cases hcontra
    · rw [if_neg ht2]
      intro hcontra
      injection hcontra with h'
      exact hab h'

/-- C2 (amended).  On a record stream with no flush boundary (no
`user`-typed record that passes the skip filter and carries a dict
message), the grouping produces exactly one assistant item per distinct
buffer key (message identifier, or record identity when the id is not
truthy), in first-appearance order; each item holds the concatenation, in
encounter order, of the content blocks of every record sharing that key,
with the first contributor's timestamp. -/
theorem one_assistant_item_per_id (records : List JValue)
    (h : ∀ r ∈ records, userFlushes r = false) :
    groupAssistantRecords records
      = (firstDedup ((qualTriples records).map (fun t => t.1))).map
          (fun k => Item.assistant (gatherQ (qualTriples records) k)
            (firstTsQ (qualTriples records) k)) := by
  unfold groupAssistantRecords groupFromEnum
  rw [groupFold_eq_collect records.enum [] []
    (List.forall_mem_enum.mpr (fun i hi => h _ (List.getElem_mem hi)))]
  rw [show ((records.enum.filter (fun er => assistQualifies er.2)).map mkTriple)
    = qualTriples records from rfl]
  rw [collect_characterization (qualTriples records) []
    (fun t _ _ => rfl) (qualTriples_inr_pairwise records)]
  rw [show (fun x => !hasKey ([] : List ((JValue ⊕ Nat) × List JValue × JValue)) x)
    = (fun _ => true) from rfl, List.filter_true]
  simp [flushGroups, List.map_map, Function.comp]

/-- An assistant record with message id `m1` and one content block. -/
def assistantRecA : JValue :=
  .obj [("type", .str "assistant"),
        ("message", .obj [("id", .str "m1"), ("content", .arr [.str "a"])]),
        ("timestamp", .str "t1")]

/-- A plain user record (a flush boundary). -/
def userRecHi : JValue :=
  .obj [("type", .str "user"),
        ("message", .obj [("role", .str "user"), ("content", .str "hi")]),
        ("timestamp", .str "t2")]

/-- A second assistant record with the same message id `m1`. -/
def assistantRecB : JValue :=
  .obj [("type", .str "assistant"),
        ("message", .obj [("id", .str "m1"), ("content", .arr [.str "b"])]),
        ("timestamp", .str "t3")]

/-- Counterexample to C2 as stated: two assistant records sharing message
id `m1` that straddle a user record produce two separate assistant items
(the user record flushes the pending buffer), not one item with the blocks
of both. -/
theorem assistant_grouping_counterexample :
    (assistantRecA.getD "message" (.obj [])).getD "id" (.str "") = .str "m1" ∧
      (assistantRecB.getD "message" (.obj [])).getD "id" (.str "") = .str "m1" ∧
      groupAssistantRecords [assistantRecA, userRecHi, assistantRecB]
        = [Item.assistant [.str "a"] (.str "t1"),
           Item.user "hi" (.str "t2"),
           Item.assistant [.str "b"] (.str "t3")] ∧
      (groupAssistantRecords [assistantRecA, userRecHi, assistantRecB]).countP
          (fun it => match it with
            | Item.assistant _ _ => true
            | _ => false) = 2 := by
  refine ⟨by decide, by decide, by decide, by decide⟩

/-- Witness for the amended C2 on a boundary-free stream: the two records
sharing id `m1` merge into a single assistant item. -/
theorem one_assistant_item_per_id_witness :
    (∀ r ∈ [assistantRecA, assistantRecB], userFlushes r = false) ∧
      groupAssistantRecords [assistantRecA, assistantRecB]
        = (firstDedup ((qualTriples [assistantRecA, assistantRecB]).map
            (fun t => t.1))).map
            (fun k => Item.assistant
              (gatherQ (qualTriples [assistantRecA, assistantRecB]) k)
              (firstTsQ (qualTriples [assistantRecA, assistantRecB]) k)) :=
  ⟨by decide, one_assistant_item_per_id _ (by decide)⟩

example : groupAssistantRecords [assistantRecA, assistantRecB]
    = [Item.assistant [.str "a", .str "b"] (.str "t1")] := by decide
